import Mathlib

/-!
Verification of the file-driven task orchestrator.

The development shallowly embeds the pure decision logic of the orchestrator:

* `app/orchestrator/workflow.py` — backlog discovery/normalization
  (`discover_backlog`), eligibility selection (`pick_next`) and fix-gate
  synthesis (`synthesize_fix_gate`);
* `app/orchestrator/state.py` — state load/rebuild (`load_state`,
  `rebuild_state`, `_valid_state`, `_new_state_skeleton`) and the artifact
  manifest builder (`compute_artifacts_manifest`, `_is_omitted`);
* `app/executor/runloop.py` — path normalization, protected-zone conflict
  computation (`_check_protected_conflicts`) and `preflight_checks`;
* `orchestrator.py` — `sanitize_paths`, the protected-path gate of
  `executor_for_story`, `coverage_from_pytest_output` and
  `run_pytest_and_coverage`.

Filesystem and process effects are made explicit: the backlog directory is
represented by the list of per-file parse results, the workspace tree by a
list of file records (path, checksum, a readability flag), the persisted
state file by an optional parse result, and the import check / external test
runner by their reported results.  JSON values are modelled by the inductive
`Val`; persisting then re-reading a document is modelled as the identity on
the parsed value.  Python strings are compared by code points, which matches
the `Char` order used here; `\d` and `\s` in the two coverage regexes are
modelled by their ASCII meaning.  The float comparison
`cov >= COVERAGE_TARGET - 1e-6` (with `COVERAGE_TARGET = 95.0` and `cov` the
float of a parsed integer) is modelled exactly in integers scaled by 10^6.
-/

/-- Replace every backslash character by a forward slash.  Models the Python
expression `p.replace("\\", "/")` (a single-character substitution, hence a
character map). -/
def replSlash (s : String) : String :=
  String.mk (s.data.map (fun c => if c = '\\' then '/' else c))

/-- Drop all leading characters that are a dot or a slash.  Models the Python
expression `p.lstrip("./")`, whose argument is a character set. -/
def lstripDotSlash (s : String) : String :=
  String.mk (s.data.dropWhile (fun c => c = '.' || c = '/'))

/-- Drop all trailing slash characters; models `p.rstrip("/")`. -/
def rstripSlash (s : String) : String :=
  String.mk ((s.data.reverse.dropWhile (fun c => c = '/')).reverse)

/-- Models Python `s.startswith(pre)`. -/
def strStartsWith (s pre : String) : Bool := pre.data.isPrefixOf s.data

/-- Models Python `s.endswith(suf)`. -/
def strEndsWith (s suf : String) : Bool := suf.data.isSuffixOf s.data

/-- Lexicographic comparison of character lists by code point; this is the
order Python uses to compare and sort strings. -/
def charListLe : List Char → List Char → Bool
  | [], _ => true
  | _ :: _, [] => false
  | a :: as, b :: bs => if a < b then true else if b < a then false else charListLe as bs

/-- Python string order (code-point lexicographic). -/
def strLe (a b : String) : Bool := charListLe a.data b.data

/-- `strLe` as a relation, for use with `List.insertionSort`. -/
def strR (a b : String) : Prop := strLe a b = true

instance : DecidableRel strR := fun a b => inferInstanceAs (Decidable (_ = true))

/-- Does `s` contain `sub` as a contiguous substring (Python `sub in s` on the
character-list level)? -/
def charListContains (sub : List Char) : List Char → Bool
  | [] => sub.isEmpty
  | c :: rest => sub.isPrefixOf (c :: rest) || charListContains sub rest

/-- Models Python `sub in s` for strings. -/
def strContains (s sub : String) : Bool := charListContains sub.data s.data

/-! ## `app/executor/runloop.py` — path normalization and preflight -/

/-- Normalization of a single path done by `_normalize_paths`: backslashes
become slashes, then one leading `./` is removed (`p[2:]`). -/
def normalize_path (p : String) : String :=
  let q := replSlash p
  if strStartsWith q "./" then String.mk (q.data.drop 2) else q

/-- Source `_normalize_paths`: normalize each path of the list. -/
def normalize_paths (ps : List String) : List String := ps.map normalize_path

/-- Source `_check_protected_conflicts`: the sorted list of the intersection
of the two normalized path sets.  Python builds two `set`s, intersects them
and applies `sorted`; the model intersects by filtering, removes duplicates
and sorts by the string order. -/
def check_protected_conflicts (allowed protectedPaths : List String) : List String :=
  List.insertionSort strR
    (((normalize_paths allowed).filter
      (fun p => (normalize_paths protectedPaths).contains p)).dedup)

/-- The fields of the dict returned by `preflight_checks` that carry logic
(the `run_commands` / `env_vars_available` echoes are omitted). -/
structure Preflight where
  ok : Bool
  import_ok : Bool
  conflicts : List String
  classification : Option String
  issues : List String
deriving DecidableEq

/-- Source `preflight_checks`.  The import check `_can_import_app(root)` is an
effectful probe of the interpreter state; its reported result is passed in as
`import_ok` together with the error text `importErr` used in the issue
message. -/
def preflight_checks (import_ok : Bool) (importErr : String)
    (allowed protectedPaths : List String) : Preflight :=
  let issues1 : List String :=
    if import_ok then [] else ["Import check failed: " ++ importErr]
  let conflicts := check_protected_conflicts allowed protectedPaths
  let issues2 : List String := issues1 ++
    (if conflicts.isEmpty then []
     else ["Allowed paths intersect Protected Zone: " ++ String.intercalate ", " conflicts])
  let classification : Option String :=
    if !conflicts.isEmpty then some "blocked_needs_override"
    else if !import_ok then some "environment_mismatch"
    else none
  { ok := classification.isNone
    import_ok := import_ok
    conflicts := conflicts
    classification := classification
    issues := issues2 }

/-! ## `app/orchestrator/workflow.py` — backlog, selection, fix gate -/

/-- A normalized story as produced by `discover_backlog` (and by
`synthesize_fix_gate`).  Fields not consulted by the verified logic
(`risk_level`, `acceptance_criteria`, ...) are omitted; `title` is optional
because a story file need not carry one (the sort key defaults it to ""). -/
structure Story where
  id : String
  title : Option String
  status : String
  priority : Int
  dependencies : List String
  allowed_paths : List String
deriving DecidableEq

/-- A parsed story file before normalization: every field may be absent. -/
structure RawEntry where
  id : Option String
  title : Option String
  status : Option String
  priority : Option Int
  dependencies : Option (List String)
  allowed_paths : Option (List String)
deriving DecidableEq

/-- Source `VALID_STATUSES`. -/
def VALID_STATUSES : List String := ["ready", "in_progress", "done", "blocked"]

/-- The per-story normalization done inside the `discover_backlog` loop once
the entry is known to have an id: an invalid or missing status becomes
`ready`, `dependencies` defaults to `[]`, `priority` defaults to `999`. -/
def normalize_story (i : String) (e : RawEntry) : Story :=
  { id := i
    title := e.title
    status :=
      match e.status with
      | some st => if VALID_STATUSES.contains st then st else "ready"
      | none => "ready"
    priority := e.priority.getD 999
    dependencies := e.dependencies.getD []
    allowed_paths := e.allowed_paths.getD [] }

/-- The accumulation loop of `discover_backlog` over the parse results of the
backlog files (in directory-listing order): a file that failed to parse
(`none`) or parsed to an object without an `"id"` key is skipped whole. -/
def discover_loop : List (Option RawEntry) → List Story
  | [] => []
  | none :: rest => discover_loop rest
  | some e :: rest =>
    match e.id with
    | none => discover_loop rest
    | some i => normalize_story i e :: discover_loop rest

/-- The sort key of `discover_backlog`: Python tuple order on
`(priority, title-or-"")`. -/
def storyLe (a b : Story) : Bool :=
  decide (a.priority < b.priority) ||
    (decide (a.priority = b.priority) && strLe (a.title.getD "") (b.title.getD ""))

/-- `storyLe` as a relation, for use with `List.insertionSort`. -/
def storyR (a b : Story) : Prop := storyLe a b = true

instance : DecidableRel storyR := fun a b => inferInstanceAs (Decidable (_ = true))

/-- Source `discover_backlog`, over the parse results of the recognized files
of the backlog directory: keep entries with an id, normalize them, and sort
by `(priority ascending, title ascending)` with a stable sort. -/
def discover_backlog (entries : List (Option RawEntry)) : List Story :=
  List.insertionSort storyR (discover_loop entries)

/-- The dict comprehension `{s["id"]: s.get("status", "ready") for s in stories}`
of `pick_next`: later entries overwrite earlier ones. -/
def status_index (stories : List Story) : String → Option String :=
  stories.foldl (fun m s => fun k => if k = s.id then some s.status else m k)
    (fun _ => none)

/-- Source `_deps_satisfied`: every dependency id must map to `done` in the
index; an absent id yields `none ≠ some "done"`, hence unsatisfied. -/
def deps_satisfied (idx : String → Option String) (s : Story) : Bool :=
  s.dependencies.all (fun d => idx d == some "done")

/-- Source `pick_next`: first (in the given order) `ready` story whose
dependencies are all `done` in the status index built from the list. -/
def pick_next (stories : List Story) : Option Story :=
  if stories.isEmpty then none
  else
    (stories.filter
      (fun s => s.status == "ready" && deps_satisfied (status_index stories) s)).head?

/-- Source `synthesize_fix_gate`.  The dict fields not represented in `Story`
(`acceptance_criteria`, `risk_level`, `auto_generated`, `assigned_role`) are
constants not consulted by the verified logic. -/
def synthesize_fix_gate (import_ok tests_ok : Bool) : Option Story :=
  if import_ok && tests_ok then none
  else
    let bits : List String :=
      (if !import_ok then ["import errors"] else []) ++
      (if !tests_ok then ["failing tests/coverage"] else [])
    some
      { id := "fix_gate_virtual"
        title := some ("Fix Gate: " ++ String.intercalate " & " bits)
        status := "ready"
        priority := 0
        dependencies := []
        allowed_paths := [] }

/-! ## `app/orchestrator/state.py` — state store and artifact manifest -/

/-- JSON-like values, for the persisted state document. -/
inductive Val where
  | vnull : Val
  | vbool : Bool → Val
  | vnum : Int → Val
  | vstr : String → Val
  | varr : List Val → Val
  | vobj : List (String × Val) → Val

/-- Top-level keys of an object's field list. -/
def docKeys (d : List (String × Val)) : List String := d.map Prod.fst

/-- Source `_REQUIRED_KEYS` (the Python set literal, in source order). -/
def REQUIRED_KEYS : List String :=
  ["version", "last_updated", "environment_fingerprint", "stories",
   "artifacts_manifest", "coverage_history", "protected_zone", "resume_token",
   "quarantine_tests", "container_fingerprint", "metrics", "role_progress"]

/-- Source `_valid_state`: the parsed value is a dict and the required keys
are a subset of its keys. -/
def valid_state : Val → Bool
  | .vobj fields => REQUIRED_KEYS.all (fun k => (docKeys fields).contains k)
  | _ => false

/-- The run-dependent ingredients of `_new_state_skeleton`: the current UTC
timestamp, the freshly computed environment fingerprint and artifacts
manifest, and the fresh random `uuid4` resume token. -/
structure RebuildInputs where
  nowIso : String
  fingerprint : Val
  manifest : Val
  token : String

/-- Source `_new_state_skeleton`, with the run-dependent ingredients passed
in explicitly. -/
def new_state_skeleton (inp : RebuildInputs) : List (String × Val) :=
  [("version", .vnum 1),
   ("last_updated", .vstr inp.nowIso),
   ("environment_fingerprint", inp.fingerprint),
   ("stories", .varr []),
   ("artifacts_manifest", inp.manifest),
   ("coverage_history", .varr []),
   ("protected_zone", .vobj [("paths", .varr [])]),
   ("resume_token", .vstr inp.token),
   ("quarantine_tests", .varr []),
   ("container_fingerprint", .vnull),
   ("metrics", .vobj [("throughput", .vnum 0), ("error_rate", .vnum 0)]),
   ("role_progress", .vobj [])]

/-- The state file on disk: `none` when absent, `some none` when present but
not valid JSON, `some (some v)` when it parses to `v`.  Serializing then
parsing a document is the identity on the value. -/
structure StateFile where
  persisted : Option (Option Val)

/-- Source `rebuild_state`: build a fresh skeleton from the live workspace and
persist it.  Returns the document and the resulting state file. -/
def rebuild_state (inp : RebuildInputs) : Val × StateFile :=
  let s := Val.vobj (new_state_skeleton inp)
  (s, { persisted := some (some s) })

/-- Source `load_state`: return the persisted document when it exists, parses
and is minimally valid; otherwise rebuild. -/
def load_state (fs : StateFile) (inp : RebuildInputs) : Val × StateFile :=
  match fs.persisted with
  | none => rebuild_state inp
  | some none => rebuild_state inp
  | some (some d) => if valid_state d then (d, fs) else rebuild_state inp

/-- Top-level keys of a document value (empty for non-objects). -/
def keysOfVal : Val → List String
  | .vobj fields => docKeys fields
  | _ => []

/-- Lookup of a top-level key in an object's field list. -/
def docGet (d : List (String × Val)) (k : String) : Option Val :=
  (d.find? (fun kv => kv.1 == k)).map Prod.snd

/-- A file of the workspace tree as the manifest walk sees it: its path
relative to the root (in walk order), its content checksum, and whether the
checksum pass can read it (`false` models `PermissionError` /
`FileNotFoundError` during hashing). -/
structure FsFile where
  path : String
  checksum : String
  readable : Bool
deriving DecidableEq

/-- A manifest entry `{"path": ..., "checksum": ...}`. -/
structure Artifact where
  path : String
  checksum : String
deriving DecidableEq

/-- Split a character list at slashes (Python `str.split("/")`). -/
def splitSlashCh : List Char → List (List Char)
  | [] => [[]]
  | c :: cs =>
    let r := splitSlashCh cs
    if c = '/' then [] :: r
    else
      match r with
      | [] => [[c]]
      | h :: t => (c :: h) :: t

/-- The components of a path after backslashes are turned into slashes
(`path.replace("\\", "/").split("/")`). -/
def pathParts (s : String) : List String :=
  (splitSlashCh (replSlash s).data).map String.mk

/-- The basename of a path: its last component. -/
def basenameOf (s : String) : String := ((pathParts s).getLast?).getD ""

/-- Source `_OMIT_DIRS` (the Python set literal, in source order;
`ORCH_DIR = ".orchestrator"`). -/
def OMIT_DIRS : List String :=
  [".orchestrator", ".git", ".svn", ".hg", ".venv", "__pycache__",
   ".pytest_cache", ".mypy_cache", ".ruff_cache"]

/-- Source `_OMIT_FILE_PATTERNS`. -/
def OMIT_FILE_PATTERNS : List String :=
  [".pyc", ".pyo", ".pyd", ".db", ".sqlite", ".sqlite3", ".coverage"]

/-- Source `_is_omitted`: some path component is an omitted directory name, or
the basename ends with an omitted suffix. -/
def is_omitted (path : String) : Bool :=
  (pathParts path).any (fun p => OMIT_DIRS.contains p) ||
    OMIT_FILE_PATTERNS.any (fun suf => strEndsWith (basenameOf path) suf)

/-- Manifest order: ascending by path string. -/
def artifactR (a b : Artifact) : Prop := strLe a.path b.path = true

instance : DecidableRel artifactR := fun a b => inferInstanceAs (Decidable (_ = true))

/-- Source `compute_artifacts_manifest` over the walk's file list: omitted
files never enter; a file the hashing step cannot read is skipped; the rest
are reported as `(slash-normalized path, checksum)` and sorted by path.  The
in-place pruning of `_OMIT_DIRS` in the walk is subsumed by the `_is_omitted`
component check on the relative path. -/
def compute_artifacts_manifest (files : List FsFile) : List Artifact :=
  List.insertionSort artifactR
    (files.filterMap (fun f =>
      if is_omitted f.path then none
      else if f.readable then some { path := replSlash f.path, checksum := f.checksum }
      else none))

/-! ## `orchestrator.py` — executor gate and coverage parsing -/

/-- Source `sanitize_paths`: slash-normalize, then strip leading dot/slash
characters. -/
def sanitize_paths (ps : List String) : List String :=
  ps.map (fun p => lstripDotSlash (replSlash p))

/-- An override file's grant list (`ov["allow_paths"]`); the other fields
(`story_id`, `reason`, `timestamp`) are not consulted by the gate. -/
structure Override where
  allow_paths : List String
deriving DecidableEq

/-- The override test of `executor_for_story`: some override grants `pp`
exactly or as a directory prefix. -/
def override_grants (ovs : List Override) (pp : String) : Bool :=
  ovs.any (fun ov => ov.allow_paths.any (fun ap =>
    let ap2 := replSlash ap
    pp == ap2 || strStartsWith pp (rstripSlash ap2 ++ "/")))

/-- The story fields `executor_for_story`'s protected gate consults. -/
structure OStory where
  id : String
  allowed_paths : List String
deriving DecidableEq

/-- The outcome fields of `executor_for_story` the claims are about:
`change_set["files"]`, `testing_report["ran"]`, `classification` and
`blocked_path`. -/
structure ExecOutcome where
  summary : String
  files : List String
  testing_ran : Bool
  classification : Option String
  blocked_path : Option String
deriving DecidableEq

/-- The early-return dict of `executor_for_story` on a protected-path
conflict, restricted to the represented fields. -/
def blocked_outcome (pp : String) : ExecOutcome :=
  { summary := "Edit requires touching a protected path without override."
    files := []
    testing_ran := false
    classification := some "blocked_needs_override"
    blocked_path := some pp }

/-- The gate loop of `executor_for_story`: the first allowed path whose
slash-normalized form is protected and granted by no override. -/
def first_protected_conflict (allowed protectedPaths : List String)
    (ovs : List Override) : Option String :=
  match allowed with
  | [] => none
  | p :: rest =>
    let pp := replSlash p
    if protectedPaths.contains pp && !override_grants ovs pp then some pp
    else first_protected_conflict rest protectedPaths ovs

/-- Source `executor_for_story`, protected-path gate phase.  The fix-gate
branch and the post-gate phase (package-marker creation, test run, result
assembly) perform file and process effects; their outcome is abstracted as
the parameter `rest`.  The claims settled here only concern the gate's
early return. -/
def executor_for_story (story : OStory) (ovs : List Override)
    (protectedPaths : List String) (rest : ExecOutcome) : ExecOutcome :=
  if story.id == "fix_gate_imports_tests" then rest
  else
    match first_protected_conflict (sanitize_paths story.allowed_paths)
        protectedPaths ovs with
    | some pp => blocked_outcome pp
    | none => rest

/-- ASCII decimal digit (the model of `\d`). -/
def isPyDigit (c : Char) : Bool := decide ('0' ≤ c) && decide (c ≤ '9')

/-- ASCII whitespace (the model of `\s`). -/
def isPySpace (c : Char) : Bool :=
  c = ' ' || c = '\t' || c = '\n' || c = '\r' || c = '\x0b' || c = '\x0c'

/-- The integer denoted by a digit run (`float(m.group(1))` keeps it exact). -/
def natOfDigits (ds : List Char) : Nat :=
  ds.foldl (fun n c => n * 10 + (c.toNat - '0'.toNat)) 0

/-- Match a literal character list at the front, returning the remainder. -/
def stripLit : List Char → List Char → Option (List Char)
  | [], cs => some cs
  | _ :: _, [] => none
  | l :: ls, c :: cs => if c = l then stripLit ls cs else none

/-- Match a literal character list case-insensitively (`re.IGNORECASE`). -/
def stripLitCI : List Char → List Char → Option (List Char)
  | [], cs => some cs
  | _ :: _, [] => none
  | l :: ls, c :: cs => if c.toLower = l.toLower then stripLitCI ls cs else none

/-- One-or-more maximal munch of a character class, returning the remainder.
For the two coverage patterns every quantified class is followed by a
character outside the class, so greedy matching without backtracking is
exactly the regex semantics. -/
def munch1 (p : Char → Bool) (cs : List Char) : Option (List Char) :=
  match cs with
  | [] => none
  | c :: _ => if p c then some (cs.dropWhile p) else none

/-- One-or-more digits with their value, returning value and remainder. -/
def digits1 (cs : List Char) : Option (Nat × List Char) :=
  match cs with
  | [] => none
  | c :: _ =>
    if isPyDigit c then some (natOfDigits (cs.takeWhile isPyDigit), cs.dropWhile isPyDigit)
    else none

/-- Match `TOTAL\s+\d+\s+\d+\s+(\d+)%` at the start of `cs`, returning the
captured integer. -/
def match_total_at (cs : List Char) : Option Nat :=
  (stripLit "TOTAL".data cs).bind fun r1 =>
  (munch1 isPySpace r1).bind fun r2 =>
  (munch1 isPyDigit r2).bind fun r3 =>
  (munch1 isPySpace r3).bind fun r4 =>
  (munch1 isPyDigit r4).bind fun r5 =>
  (munch1 isPySpace r5).bind fun r6 =>
  (digits1 r6).bind fun nr =>
  match nr.2 with
  | '%' :: _ => some nr.1
  | _ => none

/-- `re.search` for the `TOTAL` pattern: leftmost match wins. -/
def search_total : List Char → Option Nat
  | [] => none
  | c :: rest =>
    match match_total_at (c :: rest) with
    | some n => some n
    | none => search_total rest

/-- Match `(\d{1,3})%\s*Coverage` (case-insensitive) at the start of `cs`.
The digit run before `%` must end exactly at `%`, so the `{1,3}` bound means
the maximal run here has length 1 to 3. -/
def match_cov_at (cs : List Char) : Option Nat :=
  let run := cs.takeWhile isPyDigit
  if run.length < 1 || 3 < run.length then none
  else
    match cs.dropWhile isPyDigit with
    | '%' :: r1 =>
      match stripLitCI "coverage".data (r1.dropWhile isPySpace) with
      | some _ => some (natOfDigits run)
      | none => none
    | _ => none

/-- `re.search` for the fallback pattern: leftmost match wins. -/
def search_cov : List Char → Option Nat
  | [] => none
  | c :: rest =>
    match match_cov_at (c :: rest) with
    | some n => some n
    | none => search_cov rest

/-- Source `coverage_from_pytest_output`: the `TOTAL` summary pattern first,
else the `<int>% Coverage` fallback, else no value. -/
def coverage_from_pytest_output (txt : String) : Option Nat :=
  match search_total txt.data with
  | some n => some n
  | none => search_cov txt.data

/-- Source `run_pytest_and_coverage`, with the external command's result
(exit code, stdout, stderr) passed in.  `cov` is the parsed percentage or 0;
success is `code == 0 and cov >= COVERAGE_TARGET - 1e-6` with
`COVERAGE_TARGET = 95.0`, written exactly in units of 10^-6:
`10^6 * cov >= 95 * 10^6 - 1`. -/
def run_pytest_and_coverage (code : Int) (out err : String) : Bool × Nat :=
  let output := out ++ "\n" ++ err
  let cov := (coverage_from_pytest_output output).getD 0
  ((code == 0) && decide (94999999 ≤ 1000000 * cov), cov)

/-! Concrete stories used by the selection claim (the example of spec §8). -/

/-- Example story A: priority 2, no dependencies. -/
def storyA : Story :=
  { id := "A", title := some "A", status := "ready", priority := 2,
    dependencies := [], allowed_paths := [] }

/-- Example story B: priority 1, depends on A. -/
def storyB : Story :=
  { id := "B", title := some "B", status := "ready", priority := 1,
    dependencies := ["A"], allowed_paths := [] }

/-- Example story C: priority 1, blocked. -/
def storyC : Story :=
  { id := "C", title := some "C", status := "blocked", priority := 1,
    dependencies := [], allowed_paths := [] }

/-- Example story A after it is marked done. -/
def storyAdone : Story :=
  { id := "A", title := some "A", status := "done", priority := 2,
    dependencies := [], allowed_paths := [] }

/-- Example story D: ready but with a dependency id absent from the list. -/
def storyD : Story :=
  { id := "D", title := some "D", status := "ready", priority := 1,
    dependencies := ["ghost"], allowed_paths := [] }

/-- The fix-gate story when only the import signal failed. -/
def fixGateImportStory : Story :=
  { id := "fix_gate_virtual", title := some "Fix Gate: import errors",
    status := "ready", priority := 0, dependencies := [], allowed_paths := [] }

/-- The fix-gate story when only the tests/coverage signal failed. -/
def fixGateTestsStory : Story :=
  { id := "fix_gate_virtual", title := some "Fix Gate: failing tests/coverage",
    status := "ready", priority := 0, dependencies := [], allowed_paths := [] }

/-- The fix-gate story when both signals failed. -/
def fixGateBothStory : Story :=
  { id := "fix_gate_virtual", title := some "Fix Gate: import errors & failing tests/coverage",
    status := "ready", priority := 0, dependencies := [], allowed_paths := [] }

/-- A persisted document carrying every required key plus one extra key. -/
def doc_with_extra : List (String × Val) :=
  REQUIRED_KEYS.map (fun k => (k, Val.vnull)) ++ [("extra", Val.vnull)]

/-- Fixed rebuild ingredients used for concrete instantiations. -/
def inp0 : RebuildInputs :=
  { nowIso := "2025-01-01T00:00:00Z", fingerprint := Val.vobj [],
    manifest := Val.varr [], token := "token-1" }

/-- A flat-format entry with an unknown status value. -/
def eWeird : RawEntry :=
  { id := some "s1", title := some "T", status := some "weird", priority := none,
    dependencies := none, allowed_paths := none }

/-- An entry without an id (to be skipped whole by discovery). -/
def eNoId : RawEntry :=
  { id := none, title := some "skipped", status := some "ready", priority := some 1,
    dependencies := none, allowed_paths := none }

/-- The normalized form of `eWeird`. -/
def sWeird : Story :=
  { id := "s1", title := some "T", status := "ready", priority := 999,
    dependencies := [], allowed_paths := [] }

/-- A stand-in for the outcome of the executor's post-gate phase, used to
instantiate `executor_for_story` concretely. -/
def proceedStub : ExecOutcome :=
  { summary := "", files := [], testing_ran := true, classification := none,
    blocked_path := none }

/-- A concrete story whose allowed paths hit the protected zone. -/
def oStoryAuth : OStory := { id := "story-7", allowed_paths := ["app/auth.py"] }

/-! ## Helper lemmas -/

theorem list_contains_iff {α : Type} [BEq α] [LawfulBEq α] {l : List α} {a : α} :
    l.contains a = true ↔ a ∈ l := List.elem_iff

theorem charListLe_nil (bs : List Char) : charListLe [] bs = true := by
  cases bs <;> rfl

theorem charListLe_total (as bs : List Char) :
    charListLe as bs = true ∨ charListLe bs as = true := by
  induction as generalizing bs with
  | nil => exact Or.inl (charListLe_nil bs)
  | cons a as ih =>
    cases bs with
    | nil => exact Or.inr (charListLe_nil (a :: as))
    | cons b bs =>
      rcases lt_trichotomy a b with h | h | h
      · left; simp [charListLe, h]
      · subst h; simpa [charListLe, lt_irrefl] using ih bs
      · right; simp [charListLe, h, asymm h]

theorem charListLe_trans : ∀ {as bs cs : List Char},
    charListLe as bs = true → charListLe bs cs = true → charListLe as cs = true := by
  intro as
  induction as with
  | nil => intro bs cs _ _; exact charListLe_nil cs
  | cons a as ih =>
    intro bs cs h1 h2
    cases bs with
    | nil => simp [charListLe] at h1
    | cons b bs =>
      cases cs with
      | nil => simp [charListLe] at h2
      | cons c cs =>
        by_cases hab : a < b
        · by_cases hbc : b < c
          · simp [charListLe, lt_trans hab hbc]
          · by_cases hcb : c < b
            · simp [charListLe, hbc, hcb] at h2
            · have hbc2 : b = c := le_antisymm (le_of_not_lt hcb) (le_of_not_lt hbc)
              subst hbc2; simp [charListLe, hab]
        · by_cases hba : b < a
          · simp [charListLe, hab, hba] at h1
          · have hab2 : a = b := le_antisymm (le_of_not_lt hba) (le_of_not_lt hab)
            subst hab2
            simp [charListLe, lt_irrefl] at h1
            by_cases hac : a < c
            · simp [charListLe, hac]
            · by_cases hca : c < a
              · simp [charListLe, hac, hca] at h2
              · simp [charListLe, hac, hca] at h2 ⊢
                exact ih h1 h2

theorem charListLe_antisymm : ∀ {as bs : List Char},
    charListLe as bs = true → charListLe bs as = true → as = bs := by
  intro as
  induction as with
  | nil =>
    intro bs _ h2
    cases bs with
    | nil => rfl
    | cons b bs => simp [charListLe] at h2
  | cons a as ih =>
    intro bs h1 h2
    cases bs with
    | nil => simp [charListLe] at h1
    | cons b bs =>
      by_cases hab : a < b
      · simp [charListLe, hab, asymm hab] at h2
      · by_cases hba : b < a
        · simp [charListLe, hab, hba] at h1
        · have hab2 : a = b := le_antisymm (le_of_not_lt hba) (le_of_not_lt hab)
          subst hab2
          simp [charListLe, lt_irrefl] at h1 h2
          rw [ih h1 h2]

instance : IsTotal String strR := ⟨fun a b => charListLe_total a.data b.data⟩

instance : IsTrans String strR :=
  ⟨fun _ _ _ h1 h2 => charListLe_trans h1 h2⟩

instance : IsAntisymm String strR :=
  ⟨fun _ _ h1 h2 => String.ext (charListLe_antisymm h1 h2)⟩

instance : IsTotal Artifact artifactR := ⟨fun a b => charListLe_total a.path.data b.path.data⟩

instance : IsTrans Artifact artifactR :=
  ⟨fun _ _ _ h1 h2 => charListLe_trans h1 h2⟩

theorem storyR_iff (a b : Story) : storyR a b ↔
    (a.priority < b.priority ∨ (a.priority = b.priority ∧
      charListLe (a.title.getD "").data (b.title.getD "").data = true)) := by
  simp [storyR, storyLe, strLe, Bool.or_eq_true, Bool.and_eq_true, decide_eq_true_eq]

instance : IsTotal Story storyR := by
  refine ⟨fun a b => ?_⟩
  rcases lt_trichotomy a.priority b.priority with h | h | h
  · exact Or.inl ((storyR_iff a b).mpr (Or.inl h))
  · rcases charListLe_total (a.title.getD "").data (b.title.getD "").data with h2 | h2
    · exact Or.inl ((storyR_iff a b).mpr (Or.inr ⟨h, h2⟩))
    · exact Or.inr ((storyR_iff b a).mpr (Or.inr ⟨h.symm, h2⟩))
  · exact Or.inr ((storyR_iff b a).mpr (Or.inl h))

instance : IsTrans Story storyR := by
  refine ⟨fun a b c h1 h2 => ?_⟩
  rcases (storyR_iff a b).mp h1 with hp | ⟨hp, ht⟩
  · rcases (storyR_iff b c).mp h2 with hq | ⟨hq, _⟩
    · exact (storyR_iff a c).mpr (Or.inl (lt_trans hp hq))
    · exact (storyR_iff a c).mpr (Or.inl (hq ▸ hp))
  · rcases (storyR_iff b c).mp h2 with hq | ⟨hq, ht2⟩
    · exact (storyR_iff a c).mpr (Or.inl (hp ▸ hq))
    · exact (storyR_iff a c).mpr (Or.inr ⟨hp.trans hq, charListLe_trans ht ht2⟩)

theorem head?_filter {α : Type} (p : α → Bool) (l : List α) :
    (l.filter p).head? = l.find? p := by
  induction l with
  | nil => rfl
  | cons a t ih =>
    by_cases h : p a = true
    · rw [List.filter_cons, if_pos h, List.find?_cons_of_pos t h]; rfl
    · rw [List.filter_cons, if_neg h, List.find?_cons_of_neg t h, ih]

theorem pick_next_eq_find? (stories : List Story) :
    pick_next stories =
      stories.find? (fun s => s.status == "ready" &&
        s.dependencies.all (fun d => status_index stories d == some "done")) := by
  unfold pick_next
  by_cases h : stories.isEmpty
  · rw [if_pos h, List.isEmpty_iff.mp h]; rfl
  · rw [if_neg h, head?_filter]; rfl

theorem discover_loop_eq_filterMap (entries : List (Option RawEntry)) :
    discover_loop entries =
      entries.filterMap (fun o => o.bind (fun e => e.id.map (fun i => normalize_story i e))) := by
  induction entries with
  | nil => rfl
  | cons o rest ih =>
    cases o with
    | none => simpa [discover_loop, List.filterMap_cons] using ih
    | some e =>
      cases he : e.id with
      | none => simp [discover_loop, he, List.filterMap_cons, ih]
      | some i => simp [discover_loop, he, List.filterMap_cons, ih]

theorem normalize_story_status_valid (i : String) (e : RawEntry) :
    VALID_STATUSES.contains (normalize_story i e).status = true := by
  obtain ⟨eid, etitle, estatus, epr, edep, eap⟩ := e
  cases estatus with
  | none => rfl
  | some st =>
    by_cases hv : VALID_STATUSES.contains st = true
    · show VALID_STATUSES.contains (if VALID_STATUSES.contains st then st else "ready") = true
      rw [if_pos hv]; exact hv
    · show VALID_STATUSES.contains (if VALID_STATUSES.contains st then st else "ready") = true
      rw [if_neg hv]; rfl

theorem discover_loop_mem {entries : List (Option RawEntry)} {s : Story}
    (h : s ∈ discover_loop entries) :
    ∃ e : RawEntry, some e ∈ entries ∧ e.id = some s.id ∧ s = normalize_story s.id e := by
  induction entries with
  | nil => simp [discover_loop] at h
  | cons o rest ih =>
    cases o with
    | none =>
      obtain ⟨e, he1, he2, he3⟩ := ih (by simpa [discover_loop] using h)
      exact ⟨e, List.mem_cons_of_mem _ he1, he2, he3⟩
    | some e =>
      cases hid : e.id with
      | none =>
        obtain ⟨e2, he1, he2, he3⟩ := ih (by simpa [discover_loop, hid] using h)
        exact ⟨e2, List.mem_cons_of_mem _ he1, he2, he3⟩
      | some i =>
        rw [discover_loop, hid] at h
        rcases List.mem_cons.mp h with rfl | h2
        · exact ⟨e, List.mem_cons_self _ _, by simp [normalize_story, hid], by simp [normalize_story]⟩
        · obtain ⟨e2, he1, he2, he3⟩ := ih h2
          exact ⟨e2, List.mem_cons_of_mem _ he1, he2, he3⟩

theorem mapSlashChar_idem (c : Char) :
    (if (if c = '\\' then '/' else c) = '\\' then '/' else (if c = '\\' then '/' else c)) =
      (if c = '\\' then '/' else c) := by
  by_cases hc : c = '\\' <;> simp [hc]

theorem replSlash_idem (s : String) : replSlash (replSlash s) = replSlash s := by
  apply String.ext
  show (s.data.map _).map _ = s.data.map _
  rw [List.map_map]
  apply List.map_congr_left
  intro c _
  exact mapSlashChar_idem c

theorem pathParts_replSlash (p : String) : pathParts (replSlash p) = pathParts p := by
  unfold pathParts
  rw [replSlash_idem]

theorem is_omitted_replSlash (p : String) : is_omitted (replSlash p) = is_omitted p := by
  unfold is_omitted basenameOf
  rw [pathParts_replSlash]

theorem first_protected_conflict_eq_find (allowed protectedPaths : List String)
    (ovs : List Override) :
    first_protected_conflict allowed protectedPaths ovs =
      (allowed.find? (fun p => protectedPaths.contains (replSlash p) &&
        !override_grants ovs (replSlash p))).map replSlash := by
  induction allowed with
  | nil => rfl
  | cons p rest ih =>
    by_cases h : (protectedPaths.contains (replSlash p) && !override_grants ovs (replSlash p)) = true
    · rw [first_protected_conflict, List.find?_cons_of_pos rest h]
      simp only [h, if_true]
      rfl
    · rw [first_protected_conflict, List.find?_cons_of_neg rest h, ih]
      simp only [h, if_false]
      rfl

theorem valid_state_skeleton (inp : RebuildInputs) :
    valid_state (Val.vobj (new_state_skeleton inp)) = true := rfl

theorem keys_skeleton (inp : RebuildInputs) :
    docKeys (new_state_skeleton inp) = REQUIRED_KEYS := rfl

theorem valid_state_obj_subset {fields : List (String × Val)}
    (h : valid_state (Val.vobj fields) = true) :
    ∀ k ∈ REQUIRED_KEYS, k ∈ docKeys fields := by
  intro k hk
  have := List.all_eq_true.mp h k hk
  exact list_contains_iff.mp this

/-! ## Claim theorems -/

/-- Claim C1: for every list of stories (in particular every list in the
canonical backlog order), `pick_next` returns the first story whose status is
`ready` and all of whose dependency ids have status `done` in the status index
built from that list (an absent dependency id is unsatisfied, not done); on
the spec's example `A(priority 2), B(priority 1, deps [A]), C(priority 1,
blocked)` the discovery order is `[B, C, A]`, `pick_next` returns `A`, after
`A` is `done` it returns `B`; with no candidate it returns `none`. -/
theorem c1_pick_next_selects_first_satisfied_ready :
    (∀ stories : List Story,
      pick_next stories = stories.find? (fun s => s.status == "ready" &&
        s.dependencies.all (fun d => status_index stories d == some "done"))) ∧
    List.insertionSort storyR [storyA, storyB, storyC] = [storyB, storyC, storyA] ∧
    pick_next [storyB, storyC, storyA] = some storyA ∧
    pick_next [storyB, storyC, storyAdone] = some storyB ∧
    pick_next [storyC] = none ∧
    pick_next ([] : List Story) = none ∧
    pick_next [storyD] = none := by
  exact ⟨pick_next_eq_find?, by decide, by decide, by decide, by decide, rfl, by decide⟩

/-- Claim C7: `synthesize_fix_gate` returns `none` iff both flags are true;
otherwise it returns the synthetic story with the fixed id, priority 0,
status `ready`, empty dependencies and `allowed_paths`, and a title naming
exactly the failed signals (import when `import_ok` is false, coverage when
`tests_ok` is false, both when both are false). -/
theorem c7_synthesize_fix_gate_cases :
    (∀ i t : Bool, synthesize_fix_gate i t = none ↔ (i = true ∧ t = true)) ∧
    synthesize_fix_gate false true = some fixGateImportStory ∧
    synthesize_fix_gate true false = some fixGateTestsStory ∧
    synthesize_fix_gate false false = some fixGateBothStory ∧
    (∀ i t : Bool, ∀ s : Story, synthesize_fix_gate i t = some s →
      s.id = "fix_gate_virtual" ∧ s.priority = 0 ∧ s.status = "ready" ∧
      s.dependencies = [] ∧ s.allowed_paths = [] ∧
      (strContains (s.title.getD "") "import" = true ↔ i = false) ∧
      (strContains (s.title.getD "") "coverage" = true ↔ t = false)) := by
  refine ⟨?_, by decide, by decide, by decide, ?_⟩
  · intro i t; cases i <;> cases t <;> simp [synthesize_fix_gate]
  · intro i t s h
    cases i <;> cases t <;> simp [synthesize_fix_gate] at h <;> subst h <;> decide

/-- Witness for C7 at the concrete input `(false, true)`. -/
theorem c7_witness : strContains "Fix Gate: import errors" "import" = true := by
  have h := c7_synthesize_fix_gate_cases.2.2.2.2 false true fixGateImportStory (by decide)
  exact h.2.2.2.2.2.1.mpr rfl

/-- Claim C10: `preflight_checks` gives protected-path conflicts precedence
over import failure: a non-empty conflict intersection classifies as
`blocked_needs_override` regardless of the import result; the classification
is `environment_mismatch` exactly when there are no conflicts and the import
check fails; and the returned `ok` flag is true exactly when the
classification is `none`. -/
theorem c10_preflight_conflicts_precede_import :
    ∀ (i : Bool) (e : String) (allowed protectedPaths : List String),
      (check_protected_conflicts allowed protectedPaths ≠ [] →
        (preflight_checks i e allowed protectedPaths).classification =
          some "blocked_needs_override") ∧
      ((preflight_checks i e allowed protectedPaths).classification =
          some "environment_mismatch" ↔
        (check_protected_conflicts allowed protectedPaths = [] ∧ i = false)) ∧
      ((preflight_checks i e allowed protectedPaths).ok = true ↔
        (preflight_checks i e allowed protectedPaths).classification = none) ∧
      (preflight_checks i e allowed protectedPaths).import_ok = i ∧
      (preflight_checks i e allowed protectedPaths).conflicts =
        check_protected_conflicts allowed protectedPaths := by
  intro i e allowed protectedPaths
  by_cases hc : check_protected_conflicts allowed protectedPaths = []
  · cases i <;> simp [preflight_checks, hc, Option.isNone_iff_eq_none]
  · have hne : (check_protected_conflicts allowed protectedPaths).isEmpty = false := by
      rw [← Bool.not_eq_true, List.isEmpty_iff]
      exact hc
    cases i <;> simp [preflight_checks, hne, hc, Option.isNone_iff_eq_none]

/-- Witness for C10 at a concrete conflicting input (import also failing). -/
theorem c10_witness :
    (preflight_checks false "ModuleNotFoundError: app" ["./a"] ["a"]).classification =
      some "blocked_needs_override" :=
  (c10_preflight_conflicts_precede_import false "ModuleNotFoundError: app" ["./a"] ["a"]).1
    (by decide)

theorem check_protected_conflicts_mem (al pr : List String) (x : String) :
    x ∈ check_protected_conflicts al pr ↔
      (x ∈ normalize_paths al ∧ x ∈ normalize_paths pr) := by
  unfold check_protected_conflicts
  rw [(List.perm_insertionSort strR _).mem_iff, List.mem_dedup, List.mem_filter,
    list_contains_iff]

theorem check_protected_conflicts_sorted (al pr : List String) :
    List.Sorted strR (check_protected_conflicts al pr) :=
  List.sorted_insertionSort strR _

theorem check_protected_conflicts_nodup (al pr : List String) :
    (check_protected_conflicts al pr).Nodup := by
  unfold check_protected_conflicts
  exact ((List.perm_insertionSort strR _).nodup_iff).mpr (List.nodup_dedup _)

theorem check_protected_conflicts_perm_invariant
    {al pr al2 pr2 : List String} (ha : al.Perm al2) (hp : pr.Perm pr2) :
    check_protected_conflicts al2 pr2 = check_protected_conflicts al pr := by
  apply List.eq_of_perm_of_sorted (r := strR) ?_
    (check_protected_conflicts_sorted al2 pr2) (check_protected_conflicts_sorted al pr)
  apply (List.perm_ext_iff_of_nodup (check_protected_conflicts_nodup al2 pr2)
    (check_protected_conflicts_nodup al pr)).mpr
  intro x
  rw [check_protected_conflicts_mem, check_protected_conflicts_mem]
  simp only [normalize_paths]
  rw [(ha.map normalize_path).mem_iff, (hp.map normalize_path).mem_iff]

/-- Claim C2: for every non-fix-gate story with at least one sanitized allowed
path that is protected and granted by no override, `executor_for_story`
short-circuits at the first such conflicting path: it returns the blocked
outcome with classification `blocked_needs_override`, no touched files and
the verification step not run. -/
theorem c2_executor_blocks_on_protected_conflict :
    ∀ (story : OStory) (ovs : List Override) (protectedPaths : List String)
      (rest : ExecOutcome),
      story.id ≠ "fix_gate_imports_tests" →
      (∃ p ∈ sanitize_paths story.allowed_paths,
        protectedPaths.contains (replSlash p) = true ∧
        override_grants ovs (replSlash p) = false) →
      ∃ q, (sanitize_paths story.allowed_paths).find?
            (fun p => protectedPaths.contains (replSlash p) &&
              !override_grants ovs (replSlash p)) = some q ∧
        executor_for_story story ovs protectedPaths rest = blocked_outcome (replSlash q) ∧
        (executor_for_story story ovs protectedPaths rest).classification =
          some "blocked_needs_override" ∧
        (executor_for_story story ovs protectedPaths rest).files = [] ∧
        (executor_for_story story ovs protectedPaths rest).testing_ran = false := by
  intro story ovs protectedPaths rest hid hex
  have hsome : ((sanitize_paths story.allowed_paths).find?
      (fun p => protectedPaths.contains (replSlash p) &&
        !override_grants ovs (replSlash p))).isSome = true := by
    apply List.find?_isSome.mpr
    obtain ⟨p, hp, h1, h2⟩ := hex
    exact ⟨p, hp, by rw [h1, h2]; rfl⟩
  obtain ⟨q, hq⟩ := Option.isSome_iff_exists.mp hsome
  have hbeq : (story.id == "fix_gate_imports_tests") = false := beq_eq_false_iff_ne.mpr hid
  have hexe : executor_for_story story ovs protectedPaths rest =
      blocked_outcome (replSlash q) := by
    unfold executor_for_story
    rw [hbeq]
    simp only [Bool.false_eq_true, if_false]
    rw [first_protected_conflict_eq_find, hq]
    rfl
  exact ⟨q, hq, hexe, by rw [hexe]; rfl, by rw [hexe]; rfl, by rw [hexe]; rfl⟩

/-- Witness for C2 at a concrete conflicting story. -/
theorem c2_witness :
    (executor_for_story oStoryAuth [] ["app/auth.py"] proceedStub).classification =
      some "blocked_needs_override" := by
  obtain ⟨q, h1, h2, h3, h4, h5⟩ :=
    c2_executor_blocks_on_protected_conflict oStoryAuth [] ["app/auth.py"] proceedStub
      (by decide) ⟨"app/auth.py", by decide, by decide, by decide⟩
  exact h3

/-- Claim C9: verification succeeds iff the external command exits 0 and the
parsed coverage is at least the threshold within the 10^-6 tolerance
(`94999999 ≤ 10^6 * cov` is exactly `cov ≥ 95 - 10^-6` for the integer
percentage `cov`); the coverage comes from the first `TOTAL <int> <int>
<int>%` match, else from the first `<int>% Coverage` match (case
insensitive), else counts as 0. -/
theorem c9_verification_exit_code_and_threshold :
    (∀ (code : Int) (out err : String),
      (run_pytest_and_coverage code out err).1 = true ↔
        (code = 0 ∧ 94999999 ≤ 1000000 *
          ((coverage_from_pytest_output (out ++ "\n" ++ err)).getD 0))) ∧
    coverage_from_pytest_output "app.py    23     1    95%\nTOTAL   23     1    95%\n" = some 95 ∧
    coverage_from_pytest_output "87% Coverage" = some 87 ∧
    coverage_from_pytest_output "87% coverage" = some 87 ∧
    coverage_from_pytest_output "TOTAL 10 2 80%\nand 99% Coverage" = some 80 ∧
    coverage_from_pytest_output "TOTAL 1 2 50% TOTAL 3 4 60%" = some 50 ∧
    coverage_from_pytest_output "no percent summary here" = none ∧
    run_pytest_and_coverage 0 "no percent summary here" "" = (false, 0) ∧
    run_pytest_and_coverage 0 "TOTAL 1 2 95%" "" = (true, 95) ∧
    run_pytest_and_coverage 1 "TOTAL 1 2 95%" "" = (false, 95) ∧
    run_pytest_and_coverage 0 "TOTAL 1 2 94%" "" = (false, 94) := by
  refine ⟨?_, by decide, by decide, by decide, by decide, by decide, by decide,
    by decide, by decide, by decide, by decide⟩
  intro code out err
  simp [run_pytest_and_coverage, Bool.and_eq_true, beq_iff_eq, decide_eq_true_eq]

/-- Witness for C9 at a concrete passing run. -/
theorem c9_witness : (run_pytest_and_coverage 0 "TOTAL   23     1    95%" "").1 = true :=
  ((c9_verification_exit_code_and_threshold.1 0 "TOTAL   23     1    95%" "").mpr
    ⟨rfl, by decide⟩)

/-- Claim C6: the conflicts computation is the sorted, deduplicated
intersection of the normalized path sets; it depends only on those sets
(invariant under reordering of either input and under separator style), and
`./a/b`, `a/b` and `a\b` all normalize to `a/b`. -/
theorem c6_conflicts_is_sorted_set_intersection :
    ∀ allowed protectedPaths : List String,
      (∀ x, x ∈ check_protected_conflicts allowed protectedPaths ↔
        (x ∈ normalize_paths allowed ∧ x ∈ normalize_paths protectedPaths)) ∧
      List.Sorted strR (check_protected_conflicts allowed protectedPaths) ∧
      (check_protected_conflicts allowed protectedPaths).Nodup ∧
      (∀ allowed2 protectedPaths2 : List String, allowed.Perm allowed2 →
        protectedPaths.Perm protectedPaths2 →
        check_protected_conflicts allowed2 protectedPaths2 =
          check_protected_conflicts allowed protectedPaths) ∧
      (∀ allowed2 protectedPaths2 : List String,
        normalize_paths allowed2 = normalize_paths allowed →
        normalize_paths protectedPaths2 = normalize_paths protectedPaths →
        check_protected_conflicts allowed2 protectedPaths2 =
          check_protected_conflicts allowed protectedPaths) ∧
      normalize_path "./a/b" = "a/b" ∧ normalize_path "a\\b" = "a/b" ∧
      normalize_path "a/b" = "a/b" := by
  intro allowed protectedPaths
  refine ⟨check_protected_conflicts_mem allowed protectedPaths,
    check_protected_conflicts_sorted allowed protectedPaths,
    check_protected_conflicts_nodup allowed protectedPaths,
    fun _ _ ha hp => check_protected_conflicts_perm_invariant ha hp,
    ?_, by decide, by decide, by decide⟩
  intro allowed2 protectedPaths2 h1 h2
  unfold check_protected_conflicts
  rw [h1, h2]

/-- Witness for C6: order independence at a concrete pair of lists. -/
theorem c6_witness :
    check_protected_conflicts ["a", "b"] ["b", "a"] =
      check_protected_conflicts ["b", "a"] ["a", "b"] := by
  exact (c6_conflicts_is_sorted_set_intersection ["b", "a"] ["a", "b"]).2.2.2.1
    ["a", "b"] ["b", "a"] (by decide) (by decide)

/-- Claim C8: discovery keeps only entries with an id (failed parses and
id-less entries are skipped whole), normalizes status to `ready` when missing
or invalid, defaults `dependencies` to `[]` and `priority` to 999, and
returns the list sorted by `(priority ascending, title ascending)`. -/
theorem c8_discover_backlog_normalizes_and_sorts :
    ∀ entries : List (Option RawEntry),
      discover_backlog entries = List.insertionSort storyR
        (entries.filterMap (fun o => o.bind (fun e => e.id.map (fun i => normalize_story i e)))) ∧
      List.Sorted storyR (discover_backlog entries) ∧
      (∀ s ∈ discover_backlog entries, ∃ e : RawEntry, some e ∈ entries ∧
        e.id = some s.id ∧ s = normalize_story s.id e) ∧
      (∀ s ∈ discover_backlog entries, VALID_STATUSES.contains s.status = true) ∧
      (∀ (i : String) (e : RawEntry),
        (normalize_story i e).priority = e.priority.getD 999 ∧
        (normalize_story i e).dependencies = e.dependencies.getD [] ∧
        (e.status = none → (normalize_story i e).status = "ready") ∧
        (∀ st, e.status = some st → VALID_STATUSES.contains st = false →
          (normalize_story i e).status = "ready")) ∧
      discover_backlog [some eWeird, some eNoId, none] = [sWeird] := by
  intro entries
  refine ⟨?_, List.sorted_insertionSort storyR _, ?_, ?_, ?_, by decide⟩
  · unfold discover_backlog
    rw [discover_loop_eq_filterMap]
  · intro s hs
    exact discover_loop_mem ((List.perm_insertionSort storyR _).mem_iff.mp hs)
  · intro s hs
    obtain ⟨e, _, _, he3⟩ :=
      discover_loop_mem ((List.perm_insertionSort storyR _).mem_iff.mp hs)
    rw [he3]
    exact normalize_story_status_valid _ _
  · intro i e
    refine ⟨rfl, rfl, ?_, ?_⟩
    · intro h
      obtain ⟨eid, et, es, ep, ed, ea⟩ := e
      have h2 : es = none := h
      subst h2
      rfl
    · intro st h hv
      obtain ⟨eid, et, es, ep, ed, ea⟩ := e
      have h2 : es = some st := h
      subst h2
      show (if VALID_STATUSES.contains st then st else "ready") = "ready"
      have hnc : ¬ (VALID_STATUSES.contains st = true) := by
        rw [hv]
        exact Bool.false_ne_true
      rw [if_neg hnc]

/-- Witness for C8: the concrete weird-status story is in the discovery output
and carries a valid status. -/
theorem c8_witness : VALID_STATUSES.contains sWeird.status = true :=
  (c8_discover_backlog_normalizes_and_sorts [some eWeird, some eNoId, none]).2.2.2.1
    sWeird (by decide)

theorem manifest_mem {files : List FsFile} {a : Artifact}
    (h : a ∈ compute_artifacts_manifest files) :
    ∃ f ∈ files, f.readable = true ∧ is_omitted f.path = false ∧
      a = { path := replSlash f.path, checksum := f.checksum } := by
  unfold compute_artifacts_manifest at h
  obtain ⟨f, hf, hfa⟩ :=
    List.mem_filterMap.mp ((List.perm_insertionSort artifactR _).mem_iff.mp h)
  cases hio : is_omitted f.path with
  | true => simp [hio] at hfa
  | false =>
    cases hre : f.readable with
    | true =>
      simp [hio, hre] at hfa
      exact ⟨f, hf, hre, hio, hfa.symm⟩
    | false => simp [hio, hre] at hfa

theorem is_omitted_false_split {x : String} (h : is_omitted x = false) :
    (∀ part ∈ pathParts x, OMIT_DIRS.contains part = false) ∧
    (∀ suf ∈ OMIT_FILE_PATTERNS, strEndsWith (basenameOf x) suf = false) := by
  unfold is_omitted at h
  rw [Bool.or_eq_false_iff] at h
  obtain ⟨h1, h2⟩ := h
  constructor
  · intro part hp
    have := List.any_eq_false.mp h1 part hp
    simpa using this
  · intro suf hs
    have := List.any_eq_false.mp h2 suf hs
    simpa using this

theorem manifest_skip_unreadable (l1 l2 : List FsFile) (f : FsFile)
    (hf : f.readable = false) :
    compute_artifacts_manifest (l1 ++ f :: l2) = compute_artifacts_manifest (l1 ++ l2) := by
  unfold compute_artifacts_manifest
  have hnone : (if is_omitted f.path then none
      else if f.readable then
        some ({ path := replSlash f.path, checksum := f.checksum } : Artifact)
      else none) = none := by
    cases hio : is_omitted f.path <;> simp [hio, hf]
  simp [List.filterMap_append, List.filterMap_cons, hnone]

/-- Claim C5: the artifact manifest is a deterministic function of the tree
snapshot, sorted ascending by path; a file under an excluded directory name or
whose basename ends with an excluded suffix never appears; and an unreadable
file is skipped without affecting the entries of the remaining files. -/
theorem c5_manifest_sorted_excludes_omitted_skips_unreadable :
    ∀ files : List FsFile,
      List.Sorted artifactR (compute_artifacts_manifest files) ∧
      (∀ a ∈ compute_artifacts_manifest files, ∃ f ∈ files, f.readable = true ∧
        is_omitted f.path = false ∧
        a = { path := replSlash f.path, checksum := f.checksum }) ∧
      (∀ a ∈ compute_artifacts_manifest files,
        (∀ part ∈ pathParts a.path, OMIT_DIRS.contains part = false) ∧
        (∀ suf ∈ OMIT_FILE_PATTERNS, strEndsWith (basenameOf a.path) suf = false)) ∧
      (∀ (l1 l2 : List FsFile) (f : FsFile), f.readable = false →
        compute_artifacts_manifest (l1 ++ f :: l2) =
          compute_artifacts_manifest (l1 ++ l2)) := by
  intro files
  refine ⟨List.sorted_insertionSort artifactR _, fun a ha => manifest_mem ha,
    ?_, manifest_skip_unreadable⟩
  intro a ha
  obtain ⟨f, _, _, hio, hpath⟩ := manifest_mem ha
  have : is_omitted a.path = false := by
    rw [hpath]
    show is_omitted (replSlash f.path) = false
    rw [is_omitted_replSlash]
    exact hio
  exact is_omitted_false_split this

/-- Witness for C5: dropping a concrete unreadable file leaves the manifest of
the remaining files unchanged. -/
theorem c5_witness :
    compute_artifacts_manifest
        ([{ path := "b.py", checksum := "h2", readable := true }] ++
          { path := "c.py", checksum := "h3", readable := false } :: []) =
      compute_artifacts_manifest
        ([{ path := "b.py", checksum := "h2", readable := true }] ++ []) :=
  (c5_manifest_sorted_excludes_omitted_skips_unreadable []).2.2.2
    [{ path := "b.py", checksum := "h2", readable := true }] []
    { path := "c.py", checksum := "h3", readable := false } rfl

/-- Claim C3: `load_state` rebuilds and persists a fresh skeleton (fresh
manifest and fingerprint, zeroed metrics, empty stories and coverage history,
a new resume token) exactly when the persisted document is absent, fails to
parse, or misses a required key; otherwise it returns the parsed document
unchanged, so a `load_state` right after a rebuild returns the same document
with no second rebuild. -/
theorem c3_load_state_rebuild_conditions :
    ∀ (fs : StateFile) (inp : RebuildInputs),
      (fs.persisted = none → load_state fs inp = rebuild_state inp) ∧
      (fs.persisted = some none → load_state fs inp = rebuild_state inp) ∧
      (∀ d, fs.persisted = some (some d) → valid_state d = false →
        load_state fs inp = rebuild_state inp) ∧
      (∀ d, fs.persisted = some (some d) → valid_state d = true →
        load_state fs inp = (d, fs)) ∧
      (rebuild_state inp).1 = Val.vobj (new_state_skeleton inp) ∧
      (rebuild_state inp).2.persisted = some (some (Val.vobj (new_state_skeleton inp))) ∧
      docGet (new_state_skeleton inp) "stories" = some (Val.varr []) ∧
      docGet (new_state_skeleton inp) "coverage_history" = some (Val.varr []) ∧
      docGet (new_state_skeleton inp) "metrics" =
        some (Val.vobj [("throughput", Val.vnum 0), ("error_rate", Val.vnum 0)]) ∧
      docGet (new_state_skeleton inp) "resume_token" = some (Val.vstr inp.token) ∧
      docGet (new_state_skeleton inp) "artifacts_manifest" = some inp.manifest ∧
      docGet (new_state_skeleton inp) "environment_fingerprint" = some inp.fingerprint ∧
      (∀ inp2, load_state (rebuild_state inp).2 inp2 =
        ((rebuild_state inp).1, (rebuild_state inp).2)) := by
  intro fs inp
  obtain ⟨p⟩ := fs
  refine ⟨?_, ?_, ?_, ?_, rfl, rfl, rfl, rfl, rfl, rfl, rfl, rfl, ?_⟩
  · intro h
    have h2 : p = none := h
    subst h2
    rfl
  · intro h
    have h2 : p = some none := h
    subst h2
    rfl
  · intro d hd hv
    have h2 : p = some (some d) := hd
    subst h2
    simp [load_state, hv]
  · intro d hd hv
    have h2 : p = some (some d) := hd
    subst h2
    simp [load_state, hv]
  · intro inp2
    show load_state { persisted := some (some (Val.vobj (new_state_skeleton inp))) } inp2 = _
    simp [load_state, valid_state_skeleton]
    rfl

/-- Witness for C3 with an absent state file. -/
theorem c3_witness : load_state { persisted := none } inp0 = rebuild_state inp0 :=
  (c3_load_state_rebuild_conditions { persisted := none } inp0).1 rfl

/-- Counterexample to C4 as stated: a persisted document with all required
keys plus the extra top-level key `extra` passes validation and is returned
by `load_state` unchanged, so a returned document need not contain exactly
the required key set. -/
theorem c4_counterexample :
    (load_state { persisted := some (some (Val.vobj doc_with_extra)) } inp0).1 =
      Val.vobj doc_with_extra ∧
    "extra" ∈ keysOfVal
      (load_state { persisted := some (some (Val.vobj doc_with_extra)) } inp0).1 ∧
    "extra" ∉ REQUIRED_KEYS := by
  exact ⟨rfl, by decide, by decide⟩

/-- Claim C4, amended: every document returned by `load_state` contains at
least the required key set; a rebuilt document contains exactly the required
keys; and an invalid document is never partially repaired — `load_state`
discards it and returns the fresh skeleton. -/
theorem c4_amended_required_keys :
    ∀ (fs : StateFile) (inp : RebuildInputs),
      (∀ k ∈ REQUIRED_KEYS, k ∈ keysOfVal (load_state fs inp).1) ∧
      ((fs.persisted = none ∨ fs.persisted = some none) →
        keysOfVal (load_state fs inp).1 = REQUIRED_KEYS) ∧
      (∀ d, fs.persisted = some (some d) → valid_state d = false →
        load_state fs inp = rebuild_state inp ∧
        keysOfVal (load_state fs inp).1 = REQUIRED_KEYS) := by
  intro fs inp
  obtain ⟨p⟩ := fs
  refine ⟨?_, ?_, ?_⟩
  · intro k hk
    match p with
    | none =>
      show k ∈ docKeys (new_state_skeleton inp)
      rw [keys_skeleton inp]
      exact hk
    | some none =>
      show k ∈ docKeys (new_state_skeleton inp)
      rw [keys_skeleton inp]
      exact hk
    | some (some d) =>
      by_cases hv : valid_state d = true
      · have : load_state { persisted := some (some d) } inp =
            (d, { persisted := some (some d) }) := by simp [load_state, hv]
        rw [this]
        cases d with
        | vobj fields => exact valid_state_obj_subset hv k hk
        | vnull => simp [valid_state] at hv
        | vbool b => simp [valid_state] at hv
        | vnum n => simp [valid_state] at hv
        | vstr s => simp [valid_state] at hv
        | varr xs => simp [valid_state] at hv
      · have hv2 : valid_state d = false := by
          revert hv
          cases valid_state d <;> simp
        have : load_state { persisted := some (some d) } inp = rebuild_state inp := by
          simp [load_state, hv2]
        rw [this]
        show k ∈ docKeys (new_state_skeleton inp)
        rw [keys_skeleton inp]
        exact hk
  · rintro (h | h)
    · have h2 : p = none := h
      subst h2
      rfl
    · have h2 : p = some none := h
      subst h2
      rfl
  · intro d hd hv
    have h2 : p = some (some d) := hd
    subst h2
    have h3 : load_state { persisted := some (some d) } inp = rebuild_state inp := by
      simp [load_state, hv]
    exact ⟨h3, by rw [h3]; exact keys_skeleton inp⟩

/-- Witness for C4 (amended) with an absent state file. -/
theorem c4_witness : "version" ∈ keysOfVal (load_state { persisted := none } inp0).1 :=
  (c4_amended_required_keys { persisted := none } inp0).1 "version" (by decide)
